import Mathlib

/-!
Shallow embedding of the Slack agent message router
(`src/lib/slack/agent/handleMessages.ts`) and theorems checking the
natural-language specification against it.

External collaborators (database, Slack web client, job trigger) are made
explicit: database state is passed and returned, outgoing calls are recorded
in an effect trace, and responses of the Slack client that the code inspects
are supplied through an environment value.
-/

namespace HelperSlack

/-- JavaScript truthiness of an optional string: `undefined`/`null` and the
empty string are falsy. Used wherever the source tests a string with `!x`
or `if (x)`. -/
def truthy : Option String → Bool
  | none => false
  | some s => s ≠ ""

/-- `beginsWith sub l` is true when `sub` is an initial segment of `l`. -/
def beginsWith : List Char → List Char → Bool
  | [], _ => true
  | _ :: _, [] => false
  | c :: cs, d :: ds => c == d && beginsWith cs ds

/-- `occursIn sub l` is true when `sub` occurs contiguously in `l`. -/
def occursIn : List Char → List Char → Bool
  | sub, [] => beginsWith sub []
  | sub, d :: ds => beginsWith sub (d :: ds) || occursIn sub ds

/-- JavaScript `String.prototype.includes`: `strIncludes s sub` is true when
`sub` occurs contiguously in `s` (the empty string occurs in every string). -/
def strIncludes (s sub : String) : Bool := occursIn sub.data s.data

/-- JavaScript `String.prototype.toLowerCase`, written over the character
list so that it evaluates by kernel reduction. -/
def strToLower (s : String) : String := ⟨s.data.map Char.toLower⟩

/-- Matcher for the suffix of a mention token: scans for a closing `>`. -/
def mentionClose : List Char → Bool
  | [] => false
  | c :: rest => if c = '>' then true else mentionClose rest

/-- Scanner for the regular expression `<@[^>]+>` of the source: true when
some occurrence of `<@` is followed by at least one character other than `>`
and then a `>`. -/
def hasMentionTokenAux : List Char → Bool
  | '<' :: '@' :: rest =>
      (match rest with
       | [] => false
       | c :: r => if c = '>' then false else mentionClose r)
      || hasMentionTokenAux rest
  | _ :: rest => hasMentionTokenAux rest
  | [] => false

/-- `text.match(/<@[^>]+>/)` of the source, as a Boolean on strings. -/
def hasMentionToken (s : String) : Bool := hasMentionTokenAux s.data

/-- `Mailbox` of `@/lib/data/mailbox`: routing target with id, display name,
Slack bot credential and Slack bot identity id (each possibly absent). -/
structure Mailbox where
  id : Nat
  name : String
  slackBotToken : Option String
  slackBotUserId : Option String
  deriving Repr, DecidableEq

/-- `SlackMailboxInfo` of `findMailboxForEvent`: the known mailboxes and the
currently selected one, if any. -/
structure SlackMailboxInfo where
  mailboxes : List Mailbox
  currentMailbox : Option Mailbox
  deriving Repr, DecidableEq

/-- The fields of an inbound Slack event that the handler reads. An absent
string field is `none`; `bot_profile` is modelled by its presence. -/
structure SlackEvent where
  channel : String
  ts : String
  thread_ts : Option String
  text : Option String
  user : Option String
  bot_id : Option String
  bot_profile : Bool
  deriving Repr, DecidableEq

/-- A row of the `agentThreads` table. -/
structure AgentThread where
  id : Nat
  slackChannel : String
  threadTs : String
  mailboxId : Option Nat
  deriving Repr, DecidableEq

/-- A row of the `agentMessages` table (the columns the handler writes). -/
structure AgentMessage where
  agentThreadId : Nat
  role : String
  content : String
  slackChannel : String
  messageTs : String
  deriving Repr, DecidableEq

/-- Database state: the two tables and the next serial thread id. -/
structure DbState where
  threads : List AgentThread
  messages : List AgentMessage
  nextThreadId : Nat
  deriving Repr, DecidableEq

/-- One outgoing call of the handler: a database read or write, a Slack
`chat.postMessage` (with the bot token used), or a job-queue trigger. -/
inductive Effect where
  | dbFindThread (channel threadTs : String)
  | dbInsertThread (channel threadTs : String)
  | dbInsertMessage (threadId : Nat) (content channel messageTs : String)
  | dbUpdateThreadMailbox (threadId mailboxId : Nat)
  | postMessage (token channel threadTs text : String)
  | trigger (slackUserId : Option String) (statusMessageTs : String) (agentThreadId : Nat)
  deriving Repr, DecidableEq

/-- True exactly on job-queue trigger effects. -/
def Effect.isTrigger : Effect → Bool
  | .trigger _ _ _ => true
  | _ => false

/-- True exactly on Slack `chat.postMessage` effects. -/
def Effect.isPostMessage : Effect → Bool
  | .postMessage _ _ _ _ => true
  | _ => false

/-- True exactly on effects that write to the database. -/
def Effect.isDbWrite : Effect → Bool
  | .dbInsertThread _ _ => true
  | .dbInsertMessage _ _ _ _ => true
  | .dbUpdateThreadMailbox _ _ => true
  | _ => false

/-- Errors the handler can raise: a missing value where one is asserted
(`assertDefined` / `takeUniqueOrThrow`), or the failure to obtain a
timestamp for the posted placeholder message. -/
inductive HError where
  | missingValue
  | postFailed
  deriving Repr, DecidableEq

/-- Modelled from the spec: `assertDefined` (imported from
`@/components/utils/assert`, outside `src/`) returns the value when present
and raises a fatal precondition failure when it is missing. -/
def assertDefined : Option α → Except HError α
  | none => .error .missingValue
  | some a => .ok a

/-- Modelled from the spec: `WHICH_MAILBOX_MESSAGE` is a fixed prompt string
imported from `findMailboxForEvent`, whose source is outside `src/`; only
its use matters, not its wording. -/
def WHICH_MAILBOX_MESSAGE : String := "Which mailbox do you want to use?"

/-- Text of the interim placeholder message. -/
def thinkingText : String := "_Thinking..._"

/-- Text of the mailbox-switch notice for a mailbox name. -/
def switchText (mailboxName : String) : String :=
  "_Switched to the " ++ mailboxName ++ " mailbox_"

/-- Text of the which-mailbox prompt for a list of mailbox names. -/
def whichMailboxText (names : List String) : String :=
  WHICH_MAILBOX_MESSAGE ++ " (" ++ String.intercalate "/" names ++ ")"

/-- Responses of the external collaborators that the handler inspects: the
`ts` field of the `chat.postMessage` response for the placeholder message. -/
structure Env where
  thinkingTs : Option String
  deriving Repr, DecidableEq

/-- `event.thread_ts ?? event.ts`: the thread root timestamp. -/
def rootTs (event : SlackEvent) : String := event.thread_ts.getD event.ts

/-- The `agentThreads.findFirst` query: first row matching the channel and
thread root timestamp. -/
def findThread (db : DbState) (channel tts : String) : Option AgentThread :=
  db.threads.find? (fun t => t.slackChannel == channel && t.threadTs == tts)

/-- The `agentThreads` insert: a new row with the next serial id and no
bound mailbox. (`takeUniqueOrThrow` is trivial here: `returning` yields
exactly the one inserted row.) -/
def insertThread (db : DbState) (channel tts : String) : AgentThread × DbState :=
  (⟨db.nextThreadId, channel, tts, none⟩,
   { db with
     threads := db.threads ++ [⟨db.nextThreadId, channel, tts, none⟩]
     nextThreadId := db.nextThreadId + 1 })

/-- The `agentMessages` insert with `onConflictDoNothing`. Modelled from the
spec for the conflict key: the `agentMessages` schema (outside `src/`) keys
messages by a (thread id, message timestamp) uniqueness constraint, so the
insert yields no row exactly when such a message already exists. -/
def insertMessageOnConflictDoNothing (db : DbState) (m : AgentMessage) :
    Option AgentMessage × DbState :=
  if db.messages.any (fun x => x.agentThreadId == m.agentThreadId && x.messageTs == m.messageTs) then
    (none, db)
  else
    (some m, { db with messages := db.messages ++ [m] })

/-- The `agentThreads` update: set the bound mailbox id of every row whose
id matches (the id is a primary key, so at most one row in a well-formed
database). -/
def updateThreadMailbox (db : DbState) (threadId mid : Nat) : DbState :=
  { db with
    threads := db.threads.map (fun t =>
      if t.id == threadId then { t with mailboxId := some mid } else t) }

/-- `findMentionedMailbox` of the source: with more than one known mailbox,
the first mailbox other than the current one whose name occurs
case-insensitively in the message text. -/
def findMentionedMailbox (messageText : String) (mailboxes : List Mailbox)
    (currentMailbox : Mailbox) : Option Mailbox :=
  if mailboxes.length ≤ 1 then none
  else
    let lowercaseText := strToLower messageText
    mailboxes.find? (fun mailbox =>
      mailbox.id != currentMailbox.id && strIncludes lowercaseText (strToLower mailbox.name))

/-- The effective mailbox of step 5: the thread's bound mailbox looked up in
the supplied list, else the currently selected mailbox. -/
def effectiveMailbox (info : SlackMailboxInfo) (mailboxId : Option Nat) : Option Mailbox :=
  (info.mailboxes.find? (fun m => some m.id == mailboxId)).orElse
    (fun _ => info.currentMailbox)

/-- JavaScript falsiness of the stored `mailboxId` (a number or null):
`null` and `0` are falsy. -/
def jsFalsyId : Option Nat → Bool
  | none => true
  | some n => n == 0

/-- `postThinkingMessage` of the source: posts the placeholder and returns
its timestamp, raising an error when the response carries no timestamp. -/
def postThinkingMessage (env : Env) (token channel threadTs : String) :
    List Effect × Except HError String :=
  ([.postMessage token channel threadTs thinkingText],
   if truthy env.thinkingTs then .ok (env.thinkingTs.getD "") else .error .postFailed)

/-- `askWhichMailbox` of the source: posts the which-mailbox prompt using
the first mailbox's credential (asserted present). -/
def askWhichMailbox (event : SlackEvent) (mailboxes : List Mailbox) :
    List Effect × Option HError :=
  match assertDefined (mailboxes.head?.bind Mailbox.slackBotToken) with
  | .error e => ([], some e)
  | .ok token =>
      ([.postMessage token event.channel (rootTs event)
          (whichMailboxText (mailboxes.map Mailbox.name))], none)

/-- `postMailboxSwitchMessage` of the source, as the effect it performs. -/
def postMailboxSwitchMessage (token channel threadTs mailboxName : String) : Effect :=
  .postMessage token channel threadTs (switchText mailboxName)

/-- Result of a handler run: the final database, the ordered effect trace,
and the error that aborted the run, if any. -/
structure HResult where
  db : DbState
  effects : List Effect
  error : Option HError
  deriving Repr, DecidableEq

/-- Output of the thread-resolution step (lines 14-27 of the source). -/
structure ResolveOut where
  thread : AgentThread
  db : DbState
  effects : List Effect
  deriving Repr, DecidableEq

/-- Lines 14-27: fetch the thread for (channel, root timestamp) or insert a
new one. -/
def resolveThread (db : DbState) (event : SlackEvent) : ResolveOut :=
  match findThread db event.channel (rootTs event) with
  | some t => ⟨t, db, [.dbFindThread event.channel (rootTs event)]⟩
  | none =>
      ⟨(insertThread db event.channel (rootTs event)).1,
       (insertThread db event.channel (rootTs event)).2,
       [.dbFindThread event.channel (rootTs event),
        .dbInsertThread event.channel (rootTs event)]⟩

/-- Output of the message-insertion step (lines 29-45 of the source). -/
structure InsertOut where
  message : Option AgentMessage
  db : DbState
  effects : List Effect
  deriving Repr, DecidableEq

/-- Lines 29-45: when the event carries (truthy) text, insert the message
row idempotently; the created row is `none` on conflict. -/
def insertPhase (db : DbState) (event : SlackEvent) (agentThread : AgentThread) : InsertOut :=
  if truthy event.text then
    ⟨(insertMessageOnConflictDoNothing db
        ⟨agentThread.id, "user", event.text.getD "", event.channel, event.ts⟩).1,
     (insertMessageOnConflictDoNothing db
        ⟨agentThread.id, "user", event.text.getD "", event.channel, event.ts⟩).2,
     [.dbInsertMessage agentThread.id (event.text.getD "") event.channel event.ts]⟩
  else ⟨none, db, []⟩

/-- Lines 59-71: bind the thread's mailbox when it is unbound (JavaScript
falsy) or a mention-override was found; post the switch notice when a
mention-override was found and more than one mailbox exists. -/
def bindPhase (db : DbState) (event : SlackEvent) (info : SlackMailboxInfo)
    (agentThread : AgentThread) (mailbox : Mailbox) (mentionedMailbox : Option Mailbox) :
    DbState × List Effect × Option HError :=
  if jsFalsyId agentThread.mailboxId || mentionedMailbox.isSome then
    if mentionedMailbox.isSome && decide (1 < info.mailboxes.length) then
      match assertDefined (mentionedMailbox.getD mailbox).slackBotToken with
      | .error e =>
          (updateThreadMailbox db agentThread.id (mentionedMailbox.getD mailbox).id,
           [.dbUpdateThreadMailbox agentThread.id (mentionedMailbox.getD mailbox).id], some e)
      | .ok tok =>
          (updateThreadMailbox db agentThread.id (mentionedMailbox.getD mailbox).id,
           [.dbUpdateThreadMailbox agentThread.id (mentionedMailbox.getD mailbox).id,
            postMailboxSwitchMessage tok event.channel (rootTs event)
              (mentionedMailbox.getD mailbox).name],
           none)
    else
      (updateThreadMailbox db agentThread.id (mentionedMailbox.getD mailbox).id,
       [.dbUpdateThreadMailbox agentThread.id (mentionedMailbox.getD mailbox).id], none)
  else (db, [], none)

/-- Lines 73-79: build the client from the effective mailbox's credential,
post the placeholder, and trigger the job with the placeholder's timestamp. -/
def finishPhase (env : Env) (event : SlackEvent) (mailbox : Mailbox)
    (agentThread : AgentThread) : List Effect × Option HError :=
  match assertDefined mailbox.slackBotToken with
  | .error e => ([], some e)
  | .ok tok =>
      match (postThinkingMessage env tok event.channel (rootTs event)).2 with
      | .error e => ((postThinkingMessage env tok event.channel (rootTs event)).1, some e)
      | .ok statusTs =>
          ((postThinkingMessage env tok event.channel (rootTs event)).1 ++
            [.trigger event.user statusTs agentThread.id], none)

/-- Line 57: the mention-override for the effective mailbox, computed only
when the event carries (truthy) text. -/
def mentionedFor (event : SlackEvent) (info : SlackMailboxInfo) (mailbox : Mailbox) :
    Option Mailbox :=
  if truthy event.text then
    findMentionedMailbox (event.text.getD "") info.mailboxes mailbox
  else none

/-- Lines 51-79: everything after the duplicate-delivery guard. -/
def routePhase (env : Env) (event : SlackEvent) (info : SlackMailboxInfo)
    (db : DbState) (agentThread : AgentThread) (eff : List Effect) : HResult :=
  match effectiveMailbox info agentThread.mailboxId with
  | none =>
      ⟨db, eff ++ (askWhichMailbox event info.mailboxes).1,
       (askWhichMailbox event info.mailboxes).2⟩
  | some mailbox =>
      match (bindPhase db event info agentThread mailbox (mentionedFor event info mailbox)).2.2 with
      | some e =>
          ⟨(bindPhase db event info agentThread mailbox (mentionedFor event info mailbox)).1,
           eff ++ (bindPhase db event info agentThread mailbox (mentionedFor event info mailbox)).2.1,
           some e⟩
      | none =>
          ⟨(bindPhase db event info agentThread mailbox (mentionedFor event info mailbox)).1,
           eff ++ (bindPhase db event info agentThread mailbox (mentionedFor event info mailbox)).2.1 ++
             (finishPhase env event mailbox agentThread).1,
           (finishPhase env event mailbox agentThread).2⟩

/-- `handleMessage` of the source: the full router. -/
def handleMessage (env : Env) (event : SlackEvent) (info : SlackMailboxInfo)
    (db0 : DbState) : HResult :=
  if truthy event.bot_id || event.bot_profile then ⟨db0, [], none⟩
  else
    if (insertPhase (resolveThread db0 event).db event (resolveThread db0 event).thread).message.isNone
        || !(truthy event.text) then
      ⟨(insertPhase (resolveThread db0 event).db event (resolveThread db0 event).thread).db,
       (resolveThread db0 event).effects ++
         (insertPhase (resolveThread db0 event).db event (resolveThread db0 event).thread).effects,
       none⟩
    else
      routePhase env event info
        (insertPhase (resolveThread db0 event).db event (resolveThread db0 event).thread).db
        (resolveThread db0 event).thread
        ((resolveThread db0 event).effects ++
          (insertPhase (resolveThread db0 event).db event (resolveThread db0 event).thread).effects)

/-- A message of a Slack thread as returned by `conversations.replies`. -/
structure SlackReply where
  user : Option String
  text : Option String
  deriving Repr, DecidableEq

/-- Line 128 of the source: a reply not authored by the bot whose text
contains the bot-mention token. -/
def hasBotMention (botId : String) (m : SlackReply) : Bool :=
  m.user != some botId && ((m.text.map (fun t => strIncludes t ("<@" ++ botId ++ ">"))).getD false)

/-- `isAgentThread` of the source. `replies` is the full reply list of the
thread held by the platform; the `conversations.replies` call with
`limit: 50` returns its first 50 entries (modelled from the spec: the
platform returns at most `limit` messages). -/
def isAgentThread (replies : List SlackReply) (event : SlackEvent)
    (info : SlackMailboxInfo) : Bool :=
  let mbx := info.mailboxes.head?
  if !(truthy (mbx.bind Mailbox.slackBotToken)) || !(truthy (mbx.bind Mailbox.slackBotUserId))
      || !(truthy event.thread_ts) || event.thread_ts == some event.ts then false
  else if (event.text.map (fun t => strIncludes (strToLower t) "(aside)")).getD false then false
  else
    let botId := (mbx.bind Mailbox.slackBotUserId).getD ""
    let messages := replies.take 50
    if messages.any (hasBotMention botId) then true
    else if (messages.head?.bind SlackReply.user) == some botId then
      !((((messages.get? 1).bind SlackReply.text).map hasMentionToken).getD false)
    else false

/-! ### Concrete example inputs shared by witnesses and counterexamples -/

/-- Example mailbox "Support" with id 1. -/
def exMailboxA : Mailbox := ⟨1, "Support", some "tokA", some "UBOT"⟩

/-- Example mailbox "Billing" with id 2. -/
def exMailboxB : Mailbox := ⟨2, "Billing", some "tokB", some "UBOT"⟩

/-- Example context with both mailboxes, "Support" currently selected. -/
def exInfo2 : SlackMailboxInfo := ⟨[exMailboxA, exMailboxB], some exMailboxA⟩

/-- Example context with a single mailbox. -/
def exInfo1 : SlackMailboxInfo := ⟨[exMailboxA], some exMailboxA⟩

/-- Example event whose text mentions the "Billing" mailbox. -/
def exEventB : SlackEvent := ⟨"C1", "100", none, some "use billing please", some "U1", none, false⟩

/-- Example plain event. -/
def exEventHi : SlackEvent := ⟨"C1", "100", none, some "hi", some "U1", none, false⟩

/-- Example empty database with next serial id 10. -/
def exDb0 : DbState := ⟨[], [], 10⟩

/-- Example environment: the placeholder post returns timestamp "500". -/
def exEnv : Env := ⟨some "500"⟩

/-- Example environment: the placeholder post returns no timestamp. -/
def exEnvFail : Env := ⟨none⟩

/-- Example database holding one thread bound to a mailbox id (7) that is
in no mailbox list. -/
def exDbStale : DbState := ⟨[⟨3, "C1", "100", some 7⟩], [], 10⟩

/-- Example context with two mailboxes and no currently selected one. -/
def exInfoNC : SlackMailboxInfo := ⟨[exMailboxA, exMailboxB], none⟩

/-- Example thread replies: one user message that mentions the bot. -/
def exReplies : List SlackReply := [⟨some "U1", some "please <@UBOT> help"⟩]

/-- Example reply event inside an existing thread. -/
def exEventReply : SlackEvent :=
  ⟨"C1", "101", some "100", some "follow up", some "U1", none, false⟩

/-- Example reply event whose text carries an upper-case aside marker. -/
def exEventAside : SlackEvent :=
  ⟨"C1", "101", some "100", some "ok (ASIDE) later", some "U1", none, false⟩

/-- Example reply authored by the bot itself. -/
def exBotReply : SlackReply := ⟨some "UBOT", some "status update"⟩

/-! ### Helper lemmas about the phases -/

theorem resolveThread_messages (db : DbState) (event : SlackEvent) :
    (resolveThread db event).db.messages = db.messages := by
  unfold resolveThread
  split
  · rfl
  · rfl

theorem resolveThread_found {db : DbState} {event : SlackEvent} {t : AgentThread}
    (h : findThread db event.channel (rootTs event) = some t) :
    resolveThread db event = ⟨t, db, [.dbFindThread event.channel (rootTs event)]⟩ := by
  unfold resolveThread
  rw [h]

theorem resolveThread_spec (db : DbState) (event : SlackEvent) :
    ((resolveThread db event).thread ∈ db.threads ∧ (resolveThread db event).db = db) ∨
    ((resolveThread db event).thread =
        ⟨db.nextThreadId, event.channel, rootTs event, none⟩ ∧
      (resolveThread db event).db =
        ⟨db.threads ++ [(resolveThread db event).thread], db.messages, db.nextThreadId + 1⟩) := by
  unfold resolveThread insertThread
  cases h : findThread db event.channel (rootTs event) with
  | some t => exact Or.inl ⟨List.mem_of_find?_eq_some h, rfl⟩
  | none => exact Or.inr ⟨rfl, rfl⟩

theorem thread_eq_of_id_eq {threads : List AgentThread}
    (hnodup : (threads.map AgentThread.id).Nodup)
    {a b : AgentThread} (ha : a ∈ threads) (hb : b ∈ threads)
    (h : a.id = b.id) : a = b :=
  List.inj_on_of_nodup_map hnodup ha hb h

theorem findMentionedMailbox_spec {text : String} {mbs : List Mailbox} {cur mb : Mailbox}
    (h : findMentionedMailbox text mbs cur = some mb) :
    1 < mbs.length ∧ mb ∈ mbs ∧ mb.id ≠ cur.id ∧
      strIncludes (strToLower text) (strToLower mb.name) = true := by
  unfold findMentionedMailbox at h
  split at h
  · simp at h
  · next hlen =>
    have hmem := List.mem_of_find?_eq_some h
    have hp := List.find?_some h
    simp only [Bool.and_eq_true, bne_iff_ne] at hp
    exact ⟨by omega, hmem, hp.1, hp.2⟩

theorem effectiveMailbox_mention_ne {info : SlackMailboxInfo} {m : Nat} {mailbox mb : Mailbox}
    (heff : effectiveMailbox info (some m) = some mailbox)
    (hmb : mb ∈ info.mailboxes) (hne : mb.id ≠ mailbox.id) : mb.id ≠ m := by
  unfold effectiveMailbox at heff
  cases hf : info.mailboxes.find? (fun x => some x.id == some m) with
  | some f =>
      rw [hf] at heff
      simp only [Option.orElse] at heff
      have hp := List.find?_some hf
      simp only [beq_iff_eq, Option.some.injEq] at hp
      cases heff
      omega
  | none =>
      have hall := List.find?_eq_none.mp hf mb hmb
      simp only [beq_iff_eq, Option.some.injEq, Bool.not_eq_true] at hall
      simpa using hall

theorem switchText_ne_thinkingText (n : String) : switchText n ≠ thinkingText := by
  intro h
  have hl := congrArg String.length h
  simp only [switchText, thinkingText, String.length_append] at hl
  have h1 : "_Switched to the ".length = 17 := by decide
  have h2 : " mailbox_".length = 9 := by decide
  have h3 : "_Thinking..._".length = 13 := by decide
  rw [h1, h2, h3] at hl
  omega

theorem whichMailboxText_ne_thinkingText (names : List String) :
    whichMailboxText names ≠ thinkingText := by
  intro h
  have hl := congrArg String.length h
  simp only [whichMailboxText, WHICH_MAILBOX_MESSAGE, thinkingText,
    String.length_append] at hl
  have h1 : "Which mailbox do you want to use?".length = 33 := by decide
  have h2 : " (".length = 2 := by decide
  have h3 : ")".length = 1 := by decide
  have h4 : "_Thinking..._".length = 13 := by decide
  rw [h1, h2, h3, h4] at hl
  omega

theorem resolveThread_effects (db : DbState) (event : SlackEvent) :
    (resolveThread db event).effects = [.dbFindThread event.channel (rootTs event)] ∨
    (resolveThread db event).effects =
      [.dbFindThread event.channel (rootTs event),
       .dbInsertThread event.channel (rootTs event)] := by
  unfold resolveThread
  split
  · exact Or.inl rfl
  · exact Or.inr rfl

theorem insertPhase_effects (db : DbState) (event : SlackEvent) (aThread : AgentThread) :
    (insertPhase db event aThread).effects = [] ∨
    (insertPhase db event aThread).effects =
      [.dbInsertMessage aThread.id (event.text.getD "") event.channel event.ts] := by
  unfold insertPhase
  split
  · exact Or.inr rfl
  · exact Or.inl rfl

theorem mem_resolve_effects {db : DbState} {event : SlackEvent} {e : Effect}
    (he : e ∈ (resolveThread db event).effects) :
    e.isTrigger = false ∧ e.isPostMessage = false := by
  rcases resolveThread_effects db event with hr | hr <;> rw [hr] at he <;> simp at he
  · subst he; exact ⟨rfl, rfl⟩
  · rcases he with rfl | rfl <;> exact ⟨rfl, rfl⟩

theorem mem_insert_effects {db : DbState} {event : SlackEvent} {aThread : AgentThread}
    {e : Effect} (he : e ∈ (insertPhase db event aThread).effects) :
    e.isTrigger = false ∧ e.isPostMessage = false := by
  rcases insertPhase_effects db event aThread with hr | hr <;> rw [hr] at he <;> simp at he
  subst he; exact ⟨rfl, rfl⟩

theorem mem_bind_effects {db : DbState} {event : SlackEvent} {info : SlackMailboxInfo}
    {aThread : AgentThread} {mailbox : Mailbox} {mentioned : Option Mailbox} {e : Effect}
    (he : e ∈ (bindPhase db event info aThread mailbox mentioned).2.1) :
    e.isTrigger = false ∧
    (e.isPostMessage = true → ∃ tok name,
      e = .postMessage tok event.channel (rootTs event) (switchText name)) := by
  unfold bindPhase postMailboxSwitchMessage assertDefined at he
  split at he
  · split at he
    · split at he
      · simp at he; subst he; exact ⟨rfl, by intro h; cases h⟩
      · simp at he
        rcases he with rfl | rfl
        · exact ⟨rfl, by intro h; cases h⟩
        · exact ⟨rfl, by intro _; exact ⟨_, _, rfl⟩⟩
    · simp at he; subst he; exact ⟨rfl, by intro h; cases h⟩
  · simp at he

theorem bindPhase_error_spec (db : DbState) (event : SlackEvent) (info : SlackMailboxInfo)
    (aThread : AgentThread) (mailbox : Mailbox) (mentioned : Option Mailbox) :
    (bindPhase db event info aThread mailbox mentioned).2.2 = none ∨
    (bindPhase db event info aThread mailbox mentioned).2.2 = some .missingValue := by
  unfold bindPhase
  split
  · split
    · cases htok : (mentioned.getD mailbox).slackBotToken with
      | none => simp [assertDefined, htok]
      | some tok => simp [assertDefined, htok]
    · exact Or.inl rfl
  · exact Or.inl rfl

theorem finishPhase_noTs {env : Env} (h : truthy env.thinkingTs = false)
    (event : SlackEvent) (mailbox : Mailbox) (aThread : AgentThread) :
    (mailbox.slackBotToken = none ∧
      finishPhase env event mailbox aThread = ([], some .missingValue)) ∨
    (∃ tok, mailbox.slackBotToken = some tok ∧
      finishPhase env event mailbox aThread =
        ([.postMessage tok event.channel (rootTs event) thinkingText], some .postFailed)) := by
  unfold finishPhase assertDefined postThinkingMessage
  cases htok : mailbox.slackBotToken with
  | none => exact Or.inl ⟨rfl, rfl⟩
  | some tok =>
      right
      refine ⟨tok, rfl, ?_⟩
      simp [h]

/-- Under the guards of lines 12 and 47 (no bot marker, truthy text, no
duplicate message), the handler proceeds to the routing phase with the
resolved thread, the extended message table, and the read/insert effects. -/
theorem handleMessage_route (env : Env) (event : SlackEvent) (info : SlackMailboxInfo)
    (db : DbState)
    (hbot : (truthy event.bot_id || event.bot_profile) = false)
    (htext : truthy event.text = true)
    (hnoconf : db.messages.any (fun x =>
        x.agentThreadId == (resolveThread db event).thread.id && x.messageTs == event.ts) = false) :
    handleMessage env event info db =
      routePhase env event info
        { (resolveThread db event).db with
          messages := db.messages ++
            [⟨(resolveThread db event).thread.id, "user", event.text.getD "",
              event.channel, event.ts⟩] }
        (resolveThread db event).thread
        ((resolveThread db event).effects ++
          [.dbInsertMessage (resolveThread db event).thread.id (event.text.getD "")
            event.channel event.ts]) := by
  unfold handleMessage insertPhase insertMessageOnConflictDoNothing
  rw [resolveThread_messages db event]
  simp [hbot, htext, hnoconf]

theorem mentionedFor_mem {event : SlackEvent} {info : SlackMailboxInfo}
    {mailbox mb : Mailbox} (h : mentionedFor event info mailbox = some mb) :
    mb ∈ info.mailboxes ∧ mb.id ≠ mailbox.id ∧ 1 < info.mailboxes.length ∧
      strIncludes (strToLower (event.text.getD "")) (strToLower mb.name) = true := by
  unfold mentionedFor at h
  split at h
  · have hs := findMentionedMailbox_spec h
    exact ⟨hs.2.1, hs.2.2.1, hs.1, hs.2.2.2⟩
  · cases h

theorem bindPhase_no_error (db : DbState) (event : SlackEvent) (info : SlackMailboxInfo)
    (aThread : AgentThread) (mailbox : Mailbox) (mentioned : Option Mailbox)
    (hment : ∀ mb, mentioned = some mb → mb.slackBotToken ≠ none) :
    (bindPhase db event info aThread mailbox mentioned).2.2 = none := by
  unfold bindPhase
  split
  · split
    · next hcond =>
      cases hm : mentioned with
      | none =>
          rw [hm] at hcond
          simp at hcond
      | some mb =>
          cases htok : mb.slackBotToken with
          | none => exact absurd htok (hment mb hm)
          | some tok => simp [assertDefined, htok]
    · rfl
  · rfl

theorem bindPhase_switch_iff (db : DbState) (event : SlackEvent) (info : SlackMailboxInfo)
    (aThread : AgentThread) (mailbox : Mailbox) (mentioned : Option Mailbox) :
    (∃ tok name, Effect.postMessage tok event.channel (rootTs event) (switchText name)
        ∈ (bindPhase db event info aThread mailbox mentioned).2.1) ↔
    (∃ mb tok, mentioned = some mb ∧ 1 < info.mailboxes.length ∧
      mb.slackBotToken = some tok) := by
  unfold bindPhase postMailboxSwitchMessage
  split
  · split
    · next hcond =>
      simp only [Bool.and_eq_true, Option.isSome_iff_exists, decide_eq_true_eq] at hcond
      obtain ⟨⟨mb, hm⟩, hlen⟩ := hcond
      subst hm
      cases htok : mb.slackBotToken with
      | none =>
          simp only [Option.getD_some, htok, assertDefined]
          constructor
          · rintro ⟨tok, name, hmem⟩
            simp at hmem
          · rintro ⟨mb2, tok, hmb2, _, htok2⟩
            cases hmb2
            rw [htok] at htok2
            cases htok2
      | some tok =>
          simp only [Option.getD_some, htok, assertDefined]
          constructor
          · rintro ⟨tok2, name, hmem⟩
            exact ⟨mb, tok, rfl, hlen, htok⟩
          · rintro ⟨mb2, tok2, hmb2, _, htok2⟩
            exact ⟨tok, mb.name, by simp⟩
    · next hcond =>
      constructor
      · rintro ⟨tok, name, hmem⟩
        simp at hmem
      · rintro ⟨mb, tok, hmb, hlen, htok⟩
        subst hmb
        simp [hlen] at hcond
  · next hcond =>
    constructor
    · rintro ⟨tok, name, hmem⟩
      simp at hmem
    · rintro ⟨mb, tok, hmb, hlen, htok⟩
      subst hmb
      simp at hcond

theorem bindPhase_update_mem (db : DbState) (event : SlackEvent) (info : SlackMailboxInfo)
    (aThread : AgentThread) (mailbox : Mailbox) (mentioned : Option Mailbox)
    (h : jsFalsyId aThread.mailboxId = true ∨ mentioned.isSome = true) :
    ∃ v, Effect.dbUpdateThreadMailbox aThread.id v
      ∈ (bindPhase db event info aThread mailbox mentioned).2.1 := by
  unfold bindPhase
  rw [if_pos (by rcases h with h | h <;> simp [h])]
  split
  · split
    · exact ⟨(mentioned.getD mailbox).id, List.mem_cons_self _ _⟩
    · exact ⟨(mentioned.getD mailbox).id, List.mem_cons_self _ _⟩
  · exact ⟨(mentioned.getD mailbox).id, List.mem_cons_self _ _⟩

theorem mem_finish_effects {env : Env} {event : SlackEvent} {mailbox : Mailbox}
    {aThread : AgentThread} {e : Effect}
    (he : e ∈ (finishPhase env event mailbox aThread).1) :
    (∃ tok, e = .postMessage tok event.channel (rootTs event) thinkingText) ∨
    e.isTrigger = true := by
  unfold finishPhase postThinkingMessage at he
  cases htok : mailbox.slackBotToken with
  | none =>
      rw [htok] at he
      simp [assertDefined] at he
  | some tok =>
      rw [htok] at he
      simp only [assertDefined] at he
      by_cases hts : truthy env.thinkingTs = true
      · rw [if_pos hts] at he
        simp at he
        rcases he with rfl | rfl
        · exact Or.inl ⟨tok, rfl⟩
        · exact Or.inr rfl
      · simp only [Bool.not_eq_true] at hts
        rw [hts] at he
        simp at he
        subst he
        exact Or.inl ⟨tok, rfl⟩

theorem finishPhase_ok {env : Env} {mts : String} (hts : env.thinkingTs = some mts)
    (hmts : mts ≠ "") (event : SlackEvent) (mailbox : Mailbox) (aThread : AgentThread)
    {tok : String} (htok : mailbox.slackBotToken = some tok) :
    finishPhase env event mailbox aThread =
      ([.postMessage tok event.channel (rootTs event) thinkingText,
        .trigger event.user mts aThread.id], none) := by
  unfold finishPhase assertDefined postThinkingMessage
  rw [htok]
  simp [truthy, hts, hmts]

/-- C9: for every event carrying a bot marker (a nonempty bot id or a bot
profile), `handleMessage` returns at once: the database is unchanged, no
effect (persistence, messaging or trigger) is performed, and no error is
raised. -/
theorem C9_bot_marker_ignored (env : Env) (event : SlackEvent) (info : SlackMailboxInfo)
    (db : DbState)
    (h : (∃ b, event.bot_id = some b ∧ b ≠ "") ∨ event.bot_profile = true) :
    handleMessage env event info db = ⟨db, [], none⟩ := by
  have hb : (truthy event.bot_id || event.bot_profile) = true := by
    rcases h with ⟨b, hb, hne⟩ | h
    · simp [truthy, hb, hne]
    · simp [h]
  unfold handleMessage
  rw [hb]
  rfl

/-- Witness for C9 at a concrete bot event. -/
theorem C9_witness :
    handleMessage exEnv ⟨"C1", "100", none, some "hi", none, some "B7", false⟩ exInfo1 exDb0 =
      ⟨exDb0, [], none⟩ :=
  C9_bot_marker_ignored exEnv ⟨"C1", "100", none, some "hi", none, some "B7", false⟩
    exInfo1 exDb0 (Or.inl ⟨"B7", rfl, by decide⟩)

/-- C1: a repeated delivery — the thread for (channel, thread root) already
exists and a message with this thread id and message timestamp is already
recorded — leaves the database unchanged, raises no error, and performs at
most the thread lookup and the no-op insert attempt: no thread insert, no
mailbox update, no message post, and no job trigger. -/
theorem C1_duplicate_delivery_noop (env : Env) (event : SlackEvent)
    (info : SlackMailboxInfo) (db : DbState) (t : AgentThread)
    (hthread : findThread db event.channel (rootTs event) = some t)
    (hdup : db.messages.any (fun x =>
        x.agentThreadId == t.id && x.messageTs == event.ts) = true) :
    (handleMessage env event info db).db = db ∧
    (handleMessage env event info db).error = none ∧
    ((handleMessage env event info db).effects = [] ∨
     (handleMessage env event info db).effects =
       [.dbFindThread event.channel (rootTs event)] ∨
     (handleMessage env event info db).effects =
       [.dbFindThread event.channel (rootTs event),
        .dbInsertMessage t.id (event.text.getD "") event.channel event.ts]) := by
  unfold handleMessage
  by_cases hb : (truthy event.bot_id || event.bot_profile) = true
  · simp [hb]
  · rw [resolveThread_found hthread]
    simp only [Bool.not_eq_true] at hb
    rw [hb]
    unfold insertPhase insertMessageOnConflictDoNothing
    by_cases ht : truthy event.text = true
    · simp [ht, hdup]
    · simp only [Bool.not_eq_true] at ht
      simp [ht]

theorem routePhase_noTs (env : Env) (event : SlackEvent) (info : SlackMailboxInfo)
    (db : DbState) (aThread : AgentThread) (eff : List Effect)
    (h : truthy env.thinkingTs = false)
    (heffmem : ∀ e ∈ eff, e.isTrigger = false ∧ e.isPostMessage = false) :
    (∀ e ∈ (routePhase env event info db aThread eff).effects, e.isTrigger = false) ∧
    ((∃ tok, Effect.postMessage tok event.channel (rootTs event) thinkingText
        ∈ (routePhase env event info db aThread eff).effects) →
      (routePhase env event info db aThread eff).error = some HError.postFailed) := by
  unfold routePhase
  split
  · unfold askWhichMailbox
    cases htok : info.mailboxes.head?.bind Mailbox.slackBotToken with
    | none =>
        simp only [htok, assertDefined]
        constructor
        · intro e he
          rcases List.mem_append.mp he with h1 | h1
          · exact (heffmem e h1).1
          · simp at h1
        · rintro ⟨tok, hmem⟩
          rcases List.mem_append.mp hmem with h1 | h1
          · have h2 := (heffmem _ h1).2
            simp [Effect.isPostMessage] at h2
          · simp at h1
    | some tok =>
        simp only [htok, assertDefined]
        constructor
        · intro e he
          rcases List.mem_append.mp he with h1 | h1
          · exact (heffmem e h1).1
          · simp at h1
            subst h1
            rfl
        · rintro ⟨tok2, hmem⟩
          rcases List.mem_append.mp hmem with h1 | h1
          · have h2 := (heffmem _ h1).2
            simp [Effect.isPostMessage] at h2
          · simp only [List.mem_singleton, Effect.postMessage.injEq] at h1
            exact absurd h1.2.2.2.symm (whichMailboxText_ne_thinkingText _)
  · next mailbox heff =>
    split
    · constructor
      · intro e he
        rcases List.mem_append.mp he with h1 | h1
        · exact (heffmem e h1).1
        · exact (mem_bind_effects h1).1
      · rintro ⟨tok, hmem⟩
        rcases List.mem_append.mp hmem with h1 | h1
        · have h2 := (heffmem _ h1).2
          simp [Effect.isPostMessage] at h2
        · rcases (mem_bind_effects h1).2 rfl with ⟨tokx, name, heq⟩
          simp only [Effect.postMessage.injEq] at heq
          exact absurd heq.2.2.2.symm (switchText_ne_thinkingText name)
    · rcases finishPhase_noTs h event mailbox aThread with ⟨htok, hfin⟩ | ⟨tok, htok, hfin⟩
      · rw [hfin]
        constructor
        · intro e he
          simp only [List.append_nil] at he
          rcases List.mem_append.mp he with h1 | h1
          · exact (heffmem e h1).1
          · exact (mem_bind_effects h1).1
        · rintro ⟨tok2, hmem⟩
          simp only [List.append_nil] at hmem
          rcases List.mem_append.mp hmem with h1 | h1
          · have h2 := (heffmem _ h1).2
            simp [Effect.isPostMessage] at h2
          · rcases (mem_bind_effects h1).2 rfl with ⟨tokx, name, heq⟩
            simp only [Effect.postMessage.injEq] at heq
            exact absurd heq.2.2.2.symm (switchText_ne_thinkingText name)
      · rw [hfin]
        refine ⟨?_, fun _ => rfl⟩
        intro e he
        rcases List.mem_append.mp he with h1 | h1
        · rcases List.mem_append.mp h1 with h2 | h2
          · exact (heffmem e h2).1
          · exact (mem_bind_effects h2).1
        · simp at h1
          subst h1
          rfl

/-- C8: when posting the interim placeholder yields no timestamp, no run of
`handleMessage` performs a job trigger, and every run that did post the
placeholder ends in the fatal post-failure error. -/
theorem C8_placeholder_failure_aborts (env : Env) (event : SlackEvent)
    (info : SlackMailboxInfo) (db : DbState)
    (h : truthy env.thinkingTs = false) :
    (∀ e ∈ (handleMessage env event info db).effects, e.isTrigger = false) ∧
    ((∃ tok, Effect.postMessage tok event.channel (rootTs event) thinkingText
        ∈ (handleMessage env event info db).effects) →
      (handleMessage env event info db).error = some HError.postFailed) := by
  unfold handleMessage
  by_cases hb : (truthy event.bot_id || event.bot_profile) = true
  · rw [hb, if_pos rfl]
    simp
  · simp only [Bool.not_eq_true] at hb
    rw [hb, if_neg (by simp)]
    by_cases hg : ((insertPhase (resolveThread db event).db event
        (resolveThread db event).thread).message.isNone || !(truthy event.text)) = true
    · rw [hg, if_pos rfl]
      constructor
      · intro e he
        rcases List.mem_append.mp he with h1 | h1
        · exact (mem_resolve_effects h1).1
        · exact (mem_insert_effects h1).1
      · rintro ⟨tok, hmem⟩
        rcases List.mem_append.mp hmem with h1 | h1
        · have h2 := (mem_resolve_effects h1).2
          simp [Effect.isPostMessage] at h2
        · have h2 := (mem_insert_effects h1).2
          simp [Effect.isPostMessage] at h2
    · simp only [Bool.not_eq_true] at hg
      rw [hg, if_neg (by simp)]
      refine routePhase_noTs env event info _ _ _ h ?_
      intro e he
      rcases List.mem_append.mp he with h1 | h1
      · exact mem_resolve_effects h1
      · exact mem_insert_effects h1

/-- Witness for C8 at a concrete run whose placeholder post returns no
timestamp. -/
theorem C8_witness :
    (∀ e ∈ (handleMessage exEnvFail exEventHi exInfo1 exDb0).effects, e.isTrigger = false) ∧
    ((∃ tok, Effect.postMessage tok exEventHi.channel (rootTs exEventHi) thinkingText
        ∈ (handleMessage exEnvFail exEventHi exInfo1 exDb0).effects) →
      (handleMessage exEnvFail exEventHi exInfo1 exDb0).error = some HError.postFailed) :=
  C8_placeholder_failure_aborts exEnvFail exEventHi exInfo1 exDb0 (by decide)

/-- C7: with text, a fresh message row, no resolvable bound mailbox and no
currently selected one, the handler posts the which-mailbox prompt listing
all mailbox names joined by "/" using the first mailbox's credential,
triggers no job, and ends without error. -/
theorem C7_which_mailbox_prompt (env : Env) (event : SlackEvent) (info : SlackMailboxInfo)
    (db : DbState) (mb0 : Mailbox) (tok : String)
    (hbot : (truthy event.bot_id || event.bot_profile) = false)
    (htext : truthy event.text = true)
    (hnoconf : db.messages.any (fun x =>
        x.agentThreadId == (resolveThread db event).thread.id && x.messageTs == event.ts) = false)
    (heff : effectiveMailbox info (resolveThread db event).thread.mailboxId = none)
    (hhead : info.mailboxes.head? = some mb0)
    (htok : mb0.slackBotToken = some tok) :
    Effect.postMessage tok event.channel (rootTs event)
        (whichMailboxText (info.mailboxes.map Mailbox.name))
      ∈ (handleMessage env event info db).effects ∧
    (∀ e ∈ (handleMessage env event info db).effects, e.isTrigger = false) ∧
    (handleMessage env event info db).error = none := by
  rw [handleMessage_route env event info db hbot htext hnoconf]
  unfold routePhase
  rw [heff]
  unfold askWhichMailbox
  rw [hhead]
  simp only [Option.some_bind, htok, assertDefined]
  refine ⟨List.mem_append_right _ (List.mem_singleton.mpr rfl), ?_, by trivial⟩
  intro e he
  rcases List.mem_append.mp he with h1 | h1
  · rcases List.mem_append.mp h1 with h2 | h2
    · exact (mem_resolve_effects h2).1
    · simp at h2
      subst h2
      rfl
  · simp at h1
    subst h1
    rfl

theorem routePhase_switch_iff (env : Env) (event : SlackEvent) (info : SlackMailboxInfo)
    (db : DbState) (aThread : AgentThread) (eff : List Effect) (mailbox : Mailbox)
    (heff : effectiveMailbox info aThread.mailboxId = some mailbox)
    (heffmem : ∀ e ∈ eff, e.isPostMessage = false) :
    ((∃ tok name, Effect.postMessage tok event.channel (rootTs event) (switchText name)
        ∈ (routePhase env event info db aThread eff).effects) ↔
      (∃ mb tok, mentionedFor event info mailbox = some mb ∧
        1 < info.mailboxes.length ∧ mb.slackBotToken = some tok)) ∧
    (jsFalsyId aThread.mailboxId = true →
      ∃ v, Effect.dbUpdateThreadMailbox aThread.id v
        ∈ (routePhase env event info db aThread eff).effects) := by
  unfold routePhase
  split
  · next heq =>
    rw [heff] at heq
    cases heq
  · next mb2 heq =>
    rw [heff] at heq
    injection heq with h
    subst h
    split
    · constructor
      · constructor
        · rintro ⟨tok, name, hmem⟩
          rcases List.mem_append.mp hmem with h1 | h1
          · have h3 := heffmem _ h1
            simp [Effect.isPostMessage] at h3
          · exact (bindPhase_switch_iff _ event info _ mailbox _).mp ⟨tok, name, h1⟩
        · rintro ⟨mb, tok, hmb, hlen, htok⟩
          obtain ⟨tok2, name, hmem⟩ :=
            (bindPhase_switch_iff _ event info _ mailbox _).mpr ⟨mb, tok, hmb, hlen, htok⟩
          exact ⟨tok2, name, List.mem_append_right _ hmem⟩
      · intro hfalsy
        obtain ⟨v, hv⟩ :=
          bindPhase_update_mem _ event info _ mailbox _ (Or.inl hfalsy)
        exact ⟨v, List.mem_append_right _ hv⟩
    · constructor
      · constructor
        · rintro ⟨tok, name, hmem⟩
          rcases List.mem_append.mp hmem with h1 | h1
          · rcases List.mem_append.mp h1 with h2 | h2
            · have h3 := heffmem _ h2
              simp [Effect.isPostMessage] at h3
            · exact (bindPhase_switch_iff _ event info _ mailbox _).mp ⟨tok, name, h2⟩
          · rcases mem_finish_effects h1 with ⟨tok2, heq2⟩ | htr
            · simp only [Effect.postMessage.injEq] at heq2
              exact absurd heq2.2.2.2 (switchText_ne_thinkingText name)
            · simp [Effect.isTrigger] at htr
        · rintro ⟨mb, tok, hmb, hlen, htok⟩
          obtain ⟨tok2, name, hmem⟩ :=
            (bindPhase_switch_iff _ event info _ mailbox _).mpr ⟨mb, tok, hmb, hlen, htok⟩
          exact ⟨tok2, name, List.mem_append_left _ (List.mem_append_right _ hmem)⟩
      · intro hfalsy
        obtain ⟨v, hv⟩ :=
          bindPhase_update_mem _ event info _ mailbox _ (Or.inl hfalsy)
        exact ⟨v, List.mem_append_left _ (List.mem_append_right _ hv)⟩

theorem insertPhase_threads (db : DbState) (event : SlackEvent) (aThread : AgentThread) :
    (insertPhase db event aThread).db.threads = db.threads := by
  unfold insertPhase insertMessageOnConflictDoNothing
  split
  · split
    · rfl
    · rfl
  · rfl

theorem mem_updateThreadMailbox {db : DbState} {i v : Nat} {t' : AgentThread}
    (h : t' ∈ (updateThreadMailbox db i v).threads) :
    ∃ u ∈ db.threads, t' = if u.id == i then { u with mailboxId := some v } else u := by
  unfold updateThreadMailbox at h
  rcases List.mem_map.mp h with ⟨u, hu, heq⟩
  exact ⟨u, hu, heq.symm⟩

theorem bindPhase_db_cases (db : DbState) (event : SlackEvent) (info : SlackMailboxInfo)
    (aThread : AgentThread) (mailbox : Mailbox) (mentioned : Option Mailbox) :
    ((bindPhase db event info aThread mailbox mentioned).1 = db ∧
      jsFalsyId aThread.mailboxId = false ∧ mentioned.isSome = false) ∨
    ((bindPhase db event info aThread mailbox mentioned).1 =
        updateThreadMailbox db aThread.id (mentioned.getD mailbox).id ∧
      (jsFalsyId aThread.mailboxId = true ∨ mentioned.isSome = true)) := by
  unfold bindPhase
  split
  · next hcond =>
    simp only [Bool.or_eq_true] at hcond
    split
    · split
      · exact Or.inr ⟨rfl, hcond⟩
      · exact Or.inr ⟨rfl, hcond⟩
    · exact Or.inr ⟨rfl, hcond⟩
  · next hcond =>
    simp only [Bool.or_eq_true, not_or, Bool.not_eq_true] at hcond
    exact Or.inl ⟨rfl, hcond.1, hcond.2⟩

theorem routePhase_db_cases (env : Env) (event : SlackEvent) (info : SlackMailboxInfo)
    (db : DbState) (aThread : AgentThread) (eff : List Effect) :
    (routePhase env event info db aThread eff).db = db ∨
    ∃ mailbox, effectiveMailbox info aThread.mailboxId = some mailbox ∧
      (jsFalsyId aThread.mailboxId = true ∨ (mentionedFor event info mailbox).isSome = true) ∧
      (routePhase env event info db aThread eff).db =
        updateThreadMailbox db aThread.id
          ((mentionedFor event info mailbox).getD mailbox).id := by
  unfold routePhase
  split
  · exact Or.inl rfl
  · next mailbox heq =>
    rcases bindPhase_db_cases db event info aThread mailbox (mentionedFor event info mailbox)
      with ⟨hdb, _, _⟩ | ⟨hdb, hcond⟩
    · split
      · exact Or.inl hdb
      · exact Or.inl hdb
    · split
      · exact Or.inr ⟨mailbox, heq, hcond, hdb⟩
      · exact Or.inr ⟨mailbox, heq, hcond, hdb⟩

theorem resolveThread_thread_mem (db : DbState) (event : SlackEvent) :
    (resolveThread db event).thread ∈ (resolveThread db event).db.threads := by
  rcases resolveThread_spec db event with ⟨hmem, hdb⟩ | ⟨hth, hdb⟩
  · rw [hdb]
    exact hmem
  · rw [hdb]
    exact List.mem_append_right _ (List.mem_singleton.mpr rfl)

theorem eq_t_of_mem_base {db : DbState} {event : SlackEvent}
    (hnodup : (db.threads.map AgentThread.id).Nodup)
    (hserial : ∀ u ∈ db.threads, u.id < db.nextThreadId)
    {t u : AgentThread} (ht : t ∈ db.threads)
    (hu : u ∈ (resolveThread db event).db.threads)
    (hid : u.id = t.id) : u = t := by
  rcases resolveThread_spec db event with ⟨hmem, hdb⟩ | ⟨hth, hdb⟩
  · rw [hdb] at hu
    exact thread_eq_of_id_eq hnodup hu ht hid
  · rw [hdb] at hu
    rcases List.mem_append.mp hu with h1 | h1
    · exact thread_eq_of_id_eq hnodup h1 ht hid
    · simp only [List.mem_singleton] at h1
      subst h1
      rw [hth] at hid
      simp only at hid
      have hlt := hserial t ht
      exact absurd hid (by omega)

/-- C2: for a thread whose bound mailbox id is set (to a nonzero serial id),
any run that changes that binding must have found, in the (truthy) text, the
name of a known mailbox — different from the bound id and from the effective
mailbox — while more than one mailbox exists; under every other input the
binding is unchanged. Database well-formedness (distinct primary keys and a
serial counter above all existing ids) is assumed. -/
theorem C2_bound_mailbox_stable (env : Env) (event : SlackEvent) (info : SlackMailboxInfo)
    (db : DbState)
    (hnodup : (db.threads.map AgentThread.id).Nodup)
    (hserial : ∀ u ∈ db.threads, u.id < db.nextThreadId)
    (t t' : AgentThread) (m : Nat)
    (ht : t ∈ db.threads) (hm : t.mailboxId = some m) (hm0 : m ≠ 0)
    (ht' : t' ∈ (handleMessage env event info db).db.threads)
    (hid : t'.id = t.id)
    (hch : t'.mailboxId ≠ t.mailboxId) :
    1 < info.mailboxes.length ∧
    ∃ mb ∈ info.mailboxes,
      t'.mailboxId = some mb.id ∧
      strIncludes (strToLower (event.text.getD "")) (strToLower mb.name) = true ∧
      mb.id ≠ m ∧
      ∀ eff, effectiveMailbox info t.mailboxId = some eff → mb.id ≠ eff.id := by
  unfold handleMessage at ht'
  by_cases hb : (truthy event.bot_id || event.bot_profile) = true
  · rw [hb, if_pos rfl] at ht'
    have := thread_eq_of_id_eq hnodup ht' ht hid
    exact absurd (congrArg AgentThread.mailboxId this) hch
  · simp only [Bool.not_eq_true] at hb
    rw [hb, if_neg (by simp)] at ht'
    by_cases hg : ((insertPhase (resolveThread db event).db event
        (resolveThread db event).thread).message.isNone || !(truthy event.text)) = true
    · rw [hg, if_pos rfl] at ht'
      rw [insertPhase_threads] at ht'
      have := eq_t_of_mem_base hnodup hserial ht ht' hid
      exact absurd (congrArg AgentThread.mailboxId this) hch
    · simp only [Bool.not_eq_true] at hg
      rw [hg, if_neg (by simp)] at ht'
      rcases routePhase_db_cases env event info
          (insertPhase (resolveThread db event).db event (resolveThread db event).thread).db
          (resolveThread db event).thread
          ((resolveThread db event).effects ++
            (insertPhase (resolveThread db event).db event (resolveThread db event).thread).effects)
        with hdb | ⟨mailbox, heq, hcond, hdb⟩
      · rw [hdb, insertPhase_threads] at ht'
        have := eq_t_of_mem_base hnodup hserial ht ht' hid
        exact absurd (congrArg AgentThread.mailboxId this) hch
      · rw [hdb] at ht'
        obtain ⟨u, hu, heq2⟩ := mem_updateThreadMailbox ht'
        rw [insertPhase_threads] at hu
        by_cases hui : (u.id == (resolveThread db event).thread.id) = true
        · rw [if_pos hui] at heq2
          have huid : u.id = t.id := by
            have : t'.id = u.id := by rw [heq2]
            omega
          have hut : u = t := eq_t_of_mem_base hnodup hserial ht hu huid
          have hrtid : (resolveThread db event).thread.id = t.id := by
            have := beq_iff_eq.mp hui
            omega
          have hrtt : (resolveThread db event).thread = t :=
            eq_t_of_mem_base hnodup hserial ht (resolveThread_thread_mem db event) hrtid
          rw [hrtt, hm] at hcond
          simp only [jsFalsyId, beq_iff_eq, decide_eq_true_eq] at hcond
          have hcond2 : (mentionedFor event info mailbox).isSome = true := by
            rcases hcond with h1 | h1
            · exact absurd (by simpa using h1) hm0
            · exact h1
          obtain ⟨mb, hmb⟩ := Option.isSome_iff_exists.mp hcond2
          obtain ⟨hmbmem, hneid, hlen, hinc⟩ := mentionedFor_mem hmb
          have heffm : effectiveMailbox info (some m) = some mailbox := by
            rw [hrtt, hm] at heq
            exact heq
          have hnem : mb.id ≠ m := effectiveMailbox_mention_ne heffm hmbmem hneid
          refine ⟨hlen, mb, hmbmem, ?_, hinc, hnem, ?_⟩
          · rw [heq2, hut, hmb]
            rfl
          · intro eff heffeq
            rw [hm, heffm] at heffeq
            injection heffeq with h2
            rw [← h2]
            exact hneid
        · rw [if_neg hui] at heq2
          subst heq2
          have := eq_t_of_mem_base hnodup hserial ht hu hid
          exact absurd (congrArg AgentThread.mailboxId this) hch

/-- Witness for C2 at a concrete rebinding: thread bound to Support (id 1),
text mentioning Billing, rebinding to Billing (id 2). -/
theorem C2_witness :
    1 < exInfo2.mailboxes.length ∧
    ∃ mb ∈ exInfo2.mailboxes,
      (AgentThread.mk 3 "C1" "100" (some 2)).mailboxId = some mb.id ∧
      strIncludes (strToLower (exEventB.text.getD "")) (strToLower mb.name) = true ∧
      mb.id ≠ 1 ∧
      ∀ eff, effectiveMailbox exInfo2 (AgentThread.mk 3 "C1" "100" (some 1)).mailboxId
          = some eff → mb.id ≠ eff.id :=
  C2_bound_mailbox_stable exEnv exEventB exInfo2 ⟨[⟨3, "C1", "100", some 1⟩], [], 10⟩
    (by decide) (by decide) ⟨3, "C1", "100", some 1⟩ ⟨3, "C1", "100", some 2⟩ 1
    (by decide) (by decide) (by decide) (by decide) (by decide) (by decide)

/-- C3 counterexample: in a database with no thread at all, so that the
binding performed by the run is a first-time binding and not a change of an
existing one, a mention of the other of two mailboxes still posts the
"switched to mailbox" notice. -/
theorem C3_counterexample :
    exDb0.threads = [] ∧
    Effect.postMessage "tokB" "C1" "100" (switchText "Billing")
      ∈ (handleMessage exEnv exEventB exInfo2 exDb0).effects :=
  ⟨rfl, by decide⟩

/-- C3 (amended): the switch notice is posted exactly when the text mentions
a known mailbox other than the effective one, more than one mailbox exists,
and the mentioned mailbox's credential is present — regardless of whether
the thread already had a bound mailbox; and an unbound (JavaScript-falsy)
thread always gets its binding persisted. -/
theorem C3_switch_notice_iff (env : Env) (event : SlackEvent) (info : SlackMailboxInfo)
    (db : DbState) (mailbox : Mailbox)
    (hbot : (truthy event.bot_id || event.bot_profile) = false)
    (htext : truthy event.text = true)
    (hnoconf : db.messages.any (fun x =>
        x.agentThreadId == (resolveThread db event).thread.id && x.messageTs == event.ts) = false)
    (heff : effectiveMailbox info (resolveThread db event).thread.mailboxId = some mailbox) :
    ((∃ tok name, Effect.postMessage tok event.channel (rootTs event) (switchText name)
        ∈ (handleMessage env event info db).effects) ↔
      (∃ mb tok, mentionedFor event info mailbox = some mb ∧
        1 < info.mailboxes.length ∧ mb.slackBotToken = some tok)) ∧
    (jsFalsyId (resolveThread db event).thread.mailboxId = true →
      ∃ v, Effect.dbUpdateThreadMailbox (resolveThread db event).thread.id v
        ∈ (handleMessage env event info db).effects) := by
  rw [handleMessage_route env event info db hbot htext hnoconf]
  have heffmem : ∀ e ∈ (resolveThread db event).effects ++
      [Effect.dbInsertMessage (resolveThread db event).thread.id (event.text.getD "")
        event.channel event.ts], e.isPostMessage = false := by
    intro e he
    rcases List.mem_append.mp he with h1 | h1
    · exact (mem_resolve_effects h1).2
    · simp at h1
      subst h1
      rfl
  exact routePhase_switch_iff env event info _ _ _ mailbox heff heffmem

/-- Witness for C3 (amended) at a concrete first-time binding with a
mention: both sides of the characterization hold. -/
theorem C3_witness :
    ((∃ tok name, Effect.postMessage tok exEventB.channel (rootTs exEventB) (switchText name)
        ∈ (handleMessage exEnv exEventB exInfo2 exDb0).effects) ↔
      (∃ mb tok, mentionedFor exEventB exInfo2 exMailboxA = some mb ∧
        1 < exInfo2.mailboxes.length ∧ mb.slackBotToken = some tok)) ∧
    (jsFalsyId (resolveThread exDb0 exEventB).thread.mailboxId = true →
      ∃ v, Effect.dbUpdateThreadMailbox (resolveThread exDb0 exEventB).thread.id v
        ∈ (handleMessage exEnv exEventB exInfo2 exDb0).effects) :=
  C3_switch_notice_iff exEnv exEventB exInfo2 exDb0 exMailboxA
    (by decide) (by decide) (by decide) (by decide)

/-- C4 counterexample: the mention-override resolves to the Billing mailbox
(credential "tokB"), yet the interim placeholder is posted with the
Support mailbox's credential "tokA" and not with "tokB". -/
theorem C4_counterexample :
    mentionedFor exEventB exInfo2 exMailboxA = some exMailboxB ∧
    exMailboxB.slackBotToken = some "tokB" ∧
    Effect.postMessage "tokA" "C1" "100" thinkingText
      ∈ (handleMessage exEnv exEventB exInfo2 exDb0).effects ∧
    Effect.postMessage "tokB" "C1" "100" thinkingText
      ∉ (handleMessage exEnv exEventB exInfo2 exDb0).effects := by
  decide

/-- C4 (amended): the interim placeholder is always posted with the
bound-or-selected mailbox's credential — also when a mention-override was
found — and its timestamp is carried into the job payload. -/
theorem C4_placeholder_selected_credential (env : Env) (event : SlackEvent)
    (info : SlackMailboxInfo) (db : DbState) (mailbox : Mailbox) (tok mts : String)
    (hbot : (truthy event.bot_id || event.bot_profile) = false)
    (htext : truthy event.text = true)
    (hnoconf : db.messages.any (fun x =>
        x.agentThreadId == (resolveThread db event).thread.id && x.messageTs == event.ts) = false)
    (heff : effectiveMailbox info (resolveThread db event).thread.mailboxId = some mailbox)
    (htok : mailbox.slackBotToken = some tok)
    (htoks : ∀ mb ∈ info.mailboxes, mb.slackBotToken ≠ none)
    (hts : env.thinkingTs = some mts) (hmts : mts ≠ "") :
    Effect.postMessage tok event.channel (rootTs event) thinkingText
      ∈ (handleMessage env event info db).effects ∧
    Effect.trigger event.user mts (resolveThread db event).thread.id
      ∈ (handleMessage env event info db).effects ∧
    (handleMessage env event info db).error = none := by
  rw [handleMessage_route env event info db hbot htext hnoconf]
  unfold routePhase
  split
  · next heq =>
    rw [heff] at heq
    cases heq
  · next mb2 heq =>
    rw [heff] at heq
    injection heq with h
    subst h
    rw [bindPhase_no_error _ event info _ mailbox _
      (fun mb hmb => htoks mb (mentionedFor_mem hmb).1)]
    rw [finishPhase_ok hts hmts event mailbox _ htok]
    refine ⟨?_, ?_, by trivial⟩
    · exact List.mem_append_right _ (List.mem_cons_self _ _)
    · exact List.mem_append_right _ (List.mem_cons_of_mem _ (List.mem_singleton.mpr rfl))

/-- Witness for C4 (amended) at a concrete run with a mention-override in
play. -/
theorem C4_witness :
    Effect.postMessage "tokA" exEventB.channel (rootTs exEventB) thinkingText
      ∈ (handleMessage exEnv exEventB exInfo2 exDb0).effects ∧
    Effect.trigger exEventB.user "500" (resolveThread exDb0 exEventB).thread.id
      ∈ (handleMessage exEnv exEventB exInfo2 exDb0).effects ∧
    (handleMessage exEnv exEventB exInfo2 exDb0).error = none :=
  C4_placeholder_selected_credential exEnv exEventB exInfo2 exDb0 exMailboxA "tokA" "500"
    (by decide) (by decide) (by decide) (by decide) (by decide)
    (by decide) (by decide) (by decide)

/-- Witness for C7 at a concrete event whose thread points at an unknown
mailbox while no mailbox is currently selected. -/
theorem C7_witness :
    Effect.postMessage "tokA" exEventHi.channel (rootTs exEventHi)
        (whichMailboxText (exInfoNC.mailboxes.map Mailbox.name))
      ∈ (handleMessage exEnv exEventHi exInfoNC exDbStale).effects ∧
    (∀ e ∈ (handleMessage exEnv exEventHi exInfoNC exDbStale).effects, e.isTrigger = false) ∧
    (handleMessage exEnv exEventHi exInfoNC exDbStale).error = none :=
  C7_which_mailbox_prompt exEnv exEventHi exInfoNC exDbStale exMailboxA "tokA"
    (by decide) (by decide) (by decide) (by decide) (by decide) (by decide)

/-- Witness for C1 at a concrete duplicate delivery. -/
theorem C1_witness :
    (handleMessage exEnv exEventHi exInfo1
        ⟨[⟨3, "C1", "100", some 1⟩], [⟨3, "user", "hi", "C1", "100"⟩], 10⟩).db =
      ⟨[⟨3, "C1", "100", some 1⟩], [⟨3, "user", "hi", "C1", "100"⟩], 10⟩ ∧
    (handleMessage exEnv exEventHi exInfo1
        ⟨[⟨3, "C1", "100", some 1⟩], [⟨3, "user", "hi", "C1", "100"⟩], 10⟩).error = none ∧
    ((handleMessage exEnv exEventHi exInfo1
        ⟨[⟨3, "C1", "100", some 1⟩], [⟨3, "user", "hi", "C1", "100"⟩], 10⟩).effects = [] ∨
     (handleMessage exEnv exEventHi exInfo1
        ⟨[⟨3, "C1", "100", some 1⟩], [⟨3, "user", "hi", "C1", "100"⟩], 10⟩).effects =
       [.dbFindThread exEventHi.channel (rootTs exEventHi)] ∨
     (handleMessage exEnv exEventHi exInfo1
        ⟨[⟨3, "C1", "100", some 1⟩], [⟨3, "user", "hi", "C1", "100"⟩], 10⟩).effects =
       [.dbFindThread exEventHi.channel (rootTs exEventHi),
        .dbInsertMessage 3 (exEventHi.text.getD "") exEventHi.channel exEventHi.ts]) :=
  C1_duplicate_delivery_noop exEnv exEventHi exInfo1
    ⟨[⟨3, "C1", "100", some 1⟩], [⟨3, "user", "hi", "C1", "100"⟩], 10⟩
    ⟨3, "C1", "100", some 1⟩ (by decide) (by decide)

theorem hasBotMention_iff (botId : String) (mrep : SlackReply) :
    hasBotMention botId mrep = true ↔
      (mrep.user ≠ some botId ∧ ∃ s, mrep.text = some s ∧
        strIncludes s ("<@" ++ botId ++ ">") = true) := by
  unfold hasBotMention
  cases hx : mrep.text with
  | none => simp [hx]
  | some s => simp [hx, bne_iff_ne]

/-- With all guards passed, `isAgentThread` is true exactly when some fetched
message not authored by the bot carries the mention token, or the first
fetched message was authored by the bot and the second carries no
mention-style token (also when absent). -/
theorem isAgentThread_characterization (replies : List SlackReply) (event : SlackEvent)
    (info : SlackMailboxInfo) (mailbox : Mailbox) (botId : String)
    (hmb : info.mailboxes.head? = some mailbox)
    (htok : truthy mailbox.slackBotToken = true)
    (huid : mailbox.slackBotUserId = some botId)
    (hbid : botId ≠ "")
    (htts : truthy event.thread_ts = true)
    (hne : event.thread_ts ≠ some event.ts)
    (haside : ∀ s, event.text = some s → strIncludes (strToLower s) "(aside)" = false) :
    isAgentThread replies event info = true ↔
      ((∃ mrep ∈ replies.take 50, mrep.user ≠ some botId ∧
          ∃ s, mrep.text = some s ∧
            strIncludes s ("<@" ++ botId ++ ">") = true) ∨
       (((replies.take 50).head?.bind SlackReply.user) = some botId ∧
         ∀ m2 s, (replies.take 50).get? 1 = some m2 → m2.text = some s →
           hasMentionToken s = false)) := by
  have haside2 : ((event.text.map (fun t => strIncludes (strToLower t) "(aside)")).getD false)
      = false := by
    cases hx : event.text with
    | none => rfl
    | some s => simpa using haside s hx
  have hfall : (!((((replies.take 50).get? 1).bind SlackReply.text).map hasMentionToken).getD false)
      = true ↔
      (∀ m2 s, (replies.take 50).get? 1 = some m2 → m2.text = some s →
        hasMentionToken s = false) := by
    cases hx : (replies.take 50).get? 1 with
    | none => simp [hx]
    | some m2 =>
        cases hy : m2.text with
        | none =>
            constructor
            · rintro _ m2' s hm2 hts2
              injection hm2 with h1
              subst h1
              rw [hy] at hts2
              cases hts2
            · intro _
              simp [hy]
        | some s =>
            constructor
            · intro hcore m2' s' hm2 hts2
              injection hm2 with h1
              subst h1
              rw [hy] at hts2
              injection hts2 with h2
              subst h2
              simpa [hy] using hcore
            · intro hAll
              simp [hy, hAll m2 s rfl hy]
  unfold isAgentThread
  rw [hmb]
  simp only [Option.some_bind, htok, huid, Bool.not_true, Bool.false_or]
  rw [beq_eq_false_iff_ne.mpr hne]
  simp only [htts, Bool.not_true, Bool.false_or, Bool.or_false, Bool.false_eq_true, if_false]
  have htr : truthy (some botId) = true := by simp [truthy, hbid]
  rw [htr]
  simp only [Bool.not_true, Bool.false_or, Bool.false_eq_true, if_false]
  rw [haside2]
  simp only [Bool.false_eq_true, if_false, Option.getD_some]
  by_cases hA : (replies.take 50).any (hasBotMention botId) = true
  · rw [hA, if_pos rfl]
    simp only [true_iff]
    obtain ⟨mrep, hmem, hP⟩ := List.any_eq_true.mp hA
    exact Or.inl ⟨mrep, hmem, (hasBotMention_iff botId mrep).mp hP⟩
  · simp only [Bool.not_eq_true] at hA
    rw [hA, if_neg (by simp)]
    by_cases hH : (((replies.take 50).head?.bind SlackReply.user) == some botId) = true
    · simp only [hH]
      rw [if_pos trivial]
      constructor
      · intro hcore
        exact Or.inr ⟨beq_iff_eq.mp hH, hfall.mp hcore⟩
      · rintro (⟨mrep, hmem, hPm⟩ | ⟨_, hAll⟩)
        · have := List.any_eq_false.mp hA mrep hmem
          exact absurd ((hasBotMention_iff botId mrep).mpr hPm) (by simp [this])
        · exact hfall.mpr hAll
    · simp only [Bool.not_eq_true] at hH
      simp only [hH]
      rw [if_neg (by simp)]
      simp only [Bool.false_eq_true, false_iff]
      rintro (⟨mrep, hmem, hPm⟩ | ⟨hhead, _⟩)
      · have := List.any_eq_false.mp hA mrep hmem
        exact absurd ((hasBotMention_iff botId mrep).mpr hPm) (by simp [this])
      · exact absurd (beq_iff_eq.mpr hhead) (by simp [hH])

/-- C5: past the guards, `isAgentThread` inspects at most 50 fetched thread
replies and returns true exactly when some fetched non-bot message carries
the bot-mention token, or — failing that — the first fetched message was
authored by the bot and the second carries no mention-style token. -/
theorem C5_thread_scan (replies : List SlackReply) (event : SlackEvent)
    (info : SlackMailboxInfo) (mailbox : Mailbox) (botId : String)
    (hmb : info.mailboxes.head? = some mailbox)
    (htok : truthy mailbox.slackBotToken = true)
    (huid : mailbox.slackBotUserId = some botId)
    (hbid : botId ≠ "")
    (htts : truthy event.thread_ts = true)
    (hne : event.thread_ts ≠ some event.ts)
    (haside : ∀ s, event.text = some s → strIncludes (strToLower s) "(aside)" = false) :
    (replies.take 50).length ≤ 50 ∧
    (isAgentThread replies event info = true ↔
      ((∃ mrep ∈ replies.take 50, mrep.user ≠ some botId ∧
          ∃ s, mrep.text = some s ∧
            strIncludes s ("<@" ++ botId ++ ">") = true) ∨
       (((replies.take 50).head?.bind SlackReply.user) = some botId ∧
         ∀ m2 s, (replies.take 50).get? 1 = some m2 → m2.text = some s →
           hasMentionToken s = false))) :=
  ⟨by rw [List.length_take]; exact Nat.min_le_left _ _,
   isAgentThread_characterization replies event info mailbox botId
     hmb htok huid hbid htts hne haside⟩

/-- Witness for C5 at a concrete thread holding one mentioning user reply. -/
theorem C5_witness :
    (exReplies.take 50).length ≤ 50 ∧
    (isAgentThread exReplies exEventReply exInfo1 = true ↔
      ((∃ mrep ∈ exReplies.take 50, mrep.user ≠ some "UBOT" ∧
          ∃ s, mrep.text = some s ∧
            strIncludes s ("<@" ++ "UBOT" ++ ">") = true) ∨
       (((exReplies.take 50).head?.bind SlackReply.user) = some "UBOT" ∧
         ∀ m2 s, (exReplies.take 50).get? 1 = some m2 → m2.text = some s →
           hasMentionToken s = false))) :=
  C5_thread_scan exReplies exEventReply exInfo1 exMailboxA "UBOT"
    (by decide) (by decide) (by decide) (by decide) (by decide) (by decide)
    (by intro s hs; injection hs with h; subst h; decide)

/-- C6: `isAgentThread` is false whenever the first mailbox lacks a
credential or bot identity id, the event is not a reply within an existing
thread (absent thread timestamp or one equal to its own), or the text
contains "(aside)" in any letter case — the last regardless of the thread's
replies. -/
theorem C6_guards_false (replies : List SlackReply) (event : SlackEvent)
    (info : SlackMailboxInfo)
    (h : (∀ mb, info.mailboxes.head? = some mb →
            mb.slackBotToken = none ∨ mb.slackBotUserId = none) ∨
         event.thread_ts = none ∨ event.thread_ts = some event.ts ∨
         (∃ s, event.text = some s ∧
            strIncludes (strToLower s) "(aside)" = true)) :
    isAgentThread replies event info = false := by
  unfold isAgentThread
  rcases h with h | h | h | ⟨s, hs, ha⟩
  · cases hmb : info.mailboxes.head? with
    | none => simp [hmb, truthy]
    | some mb =>
        rcases h mb hmb with h1 | h1 <;> simp [hmb, h1, truthy]
  · simp [h, truthy]
  · simp [h]
  · rw [hs]
    by_cases hg : (!(truthy (info.mailboxes.head?.bind Mailbox.slackBotToken)) ||
        !(truthy (info.mailboxes.head?.bind Mailbox.slackBotUserId)) ||
        !(truthy event.thread_ts) || (event.thread_ts == some event.ts)) = true
    · simp [hg]
    · simp only [Bool.not_eq_true] at hg
      simp [hg, ha]

/-- Witness for C6 at a concrete aside-marked text in a thread that does
contain a bot mention. -/
theorem C6_witness : isAgentThread exReplies exEventAside exInfo1 = false :=
  C6_guards_false exReplies exEventAside exInfo1
    (Or.inr (Or.inr (Or.inr ⟨"ok (ASIDE) later", rfl, by decide⟩)))

/-- C10: when the fetched thread consists of a single message authored by
the bot (and the guards pass), `isAgentThread` returns true: the missing
second message counts like a second message without mention token. -/
theorem C10_single_reply_fallback (event : SlackEvent) (info : SlackMailboxInfo)
    (mailbox : Mailbox) (botId : String) (mrep : SlackReply)
    (hmb : info.mailboxes.head? = some mailbox)
    (htok : truthy mailbox.slackBotToken = true)
    (huid : mailbox.slackBotUserId = some botId)
    (hbid : botId ≠ "")
    (htts : truthy event.thread_ts = true)
    (hne : event.thread_ts ≠ some event.ts)
    (haside : ∀ s, event.text = some s → strIncludes (strToLower s) "(aside)" = false)
    (hauth : mrep.user = some botId) :
    isAgentThread [mrep] event info = true := by
  rw [isAgentThread_characterization [mrep] event info mailbox botId
    hmb htok huid hbid htts hne haside]
  refine Or.inr ⟨?_, ?_⟩
  · simp [List.take, hauth]
  · intro m2 s hm2 _
    simp [List.take] at hm2


/-- Witness for C10 at a concrete one-message bot-started thread. -/
theorem C10_witness : isAgentThread [exBotReply] exEventReply exInfo1 = true :=
  C10_single_reply_fallback exEventReply exInfo1 exMailboxA "UBOT" exBotReply
    (by decide) (by decide) (by decide) (by decide) (by decide) (by decide)
    (by intro s hs; injection hs with h; subst h; decide) (by decide)

end HelperSlack
